import Mathlib

/-!
Verification of the source-archive normalization engine of git-buildpackage
(`gbp/pkg/__init__.py`, `gbp/scripts/common/buildpackage.py`), shallowly
embedded in Lean.  Python strings are modelled as Lean `String`s (lists of
characters), Python dictionaries as association lists in their literal
order, filesystem state as explicit records of boolean oracles, and
fallible operations as `Except`-valued functions.
-/

namespace Gbp

/-! ### Format tables (`compressor_opts`, `compressor_aliases`,
`arhive_formats`, `archive_ext_aliases` in `gbp/pkg/__init__.py`) -/

/-- Table `compressor_opts`: compression name ↦ (extra options, file extension). -/
def compressor_opts : List (String × List String × String) :=
  [("gzip", (["-n"], "gz")),
   ("bzip2", ([], "bz2")),
   ("lzma", ([], "lzma")),
   ("xz", ([], "xz"))]

/-- Table `compressor_aliases`: frequently used names ↦ internal name. -/
def compressor_aliases : List (String × String) :=
  [("bz2", "bzip2"), ("gz", "gzip")]

/-- List `arhive_formats` (sic): supported archive container formats. -/
def arhive_formats : List String := ["tar", "zip"]

/-- Table `archive_ext_aliases`: combined extension ↦ (archive format, compression). -/
def archive_ext_aliases : List (String × String × String) :=
  [("tgz", ("tar", "gzip")),
   ("tbz2", ("tar", "bzip2")),
   ("tlz", ("tar", "lzma")),
   ("txz", ("tar", "xz"))]

/-! ### Splitting a filename on `.` (Python `filename.split(".")`) -/

/-- Python `s.split(".")` at the character-list level: splits on every dot,
keeping empty segments; the empty string yields `[[]]`. -/
def splitDots : List Char → List (List Char)
  | [] => [[]]
  | c :: rest =>
    if c = '.' then [] :: splitDots rest
    else
      match splitDots rest with
      | [] => [[c]]
      | g :: gs => (c :: g) :: gs

/-- Python `".".join(groups)` at the character-list level. -/
def joinDots : List (List Char) → List Char
  | [] => []
  | [g] => g
  | g :: g' :: gs => g ++ '.' :: joinDots (g' :: gs)

theorem splitDots_ne_nil (s : List Char) : splitDots s ≠ [] := by
  cases s with
  | nil => simp [splitDots]
  | cons c rest =>
    simp only [splitDots]
    split
    · simp
    · split <;> simp

theorem joinDots_splitDots (s : List Char) : joinDots (splitDots s) = s := by
  induction s with
  | nil => rfl
  | cons c rest ih =>
    simp only [splitDots]
    split
    · rename_i hc
      subst hc
      rcases h : splitDots rest with _ | ⟨g, gs⟩
      · exact absurd h (splitDots_ne_nil rest)
      · rw [h] at ih
        simp [joinDots, ih]
    · rcases h : splitDots rest with _ | ⟨g, gs⟩
      · exact absurd h (splitDots_ne_nil rest)
      · rw [h] at ih
        cases gs with
        | nil => simpa [joinDots] using ih
        | cons g' gs' => simpa [joinDots] using ih

theorem joinDots_cons (x : List Char) (l : List (List Char)) (h : l ≠ []) :
    joinDots (x :: l) = x ++ '.' :: joinDots l := by
  cases l with
  | nil => exact absurd rfl h
  | cons y ys => rfl

theorem joinDots_append (xs ys : List (List Char)) (hx : xs ≠ []) (hy : ys ≠ []) :
    joinDots (xs ++ ys) = joinDots xs ++ '.' :: joinDots ys := by
  induction xs with
  | nil => exact absurd rfl hx
  | cons x xs ih =>
    cases xs with
    | nil =>
      show joinDots (x :: ys) = joinDots [x] ++ '.' :: joinDots ys
      rw [joinDots_cons x ys hy]
      rfl
    | cons x' xs' =>
      have hxs : x' :: xs' ≠ [] := by simp
      have happ : (x' :: xs') ++ ys ≠ [] := by simp
      rw [List.cons_append, joinDots_cons x _ happ, ih hxs, joinDots_cons x _ hxs]
      simp

theorem mk_append (a b : List Char) : String.mk (a ++ b) = String.mk a ++ String.mk b := rfl

/-! ### `parse_archive_filename` -/

/-- Lookup of `split[-1] in archive_ext_aliases` followed by reading
`archive_ext_aliases[split[-1]]`. -/
def lookupAlias (s : String) : Option (String × String) :=
  (archive_ext_aliases.find? (fun p => p.1 = s)).map (fun p => p.2)

/-- The loop `for (c, o) in compressor_opts.iteritems(): if o[1] == split[-1]`:
the first compressor whose extension is `s`. -/
def lookupCompressor (s : String) : Option String :=
  (compressor_opts.find? (fun p => p.2.2 = s)).map (fun p => p.1)

/-- Function `parse_archive_filename(filename)`: split the filename on `.`; if the last
segment is a combined alias, a bare archive format, or a compressor extension
(in that priority order), strip it (and, in the compressor case with more than
two segments, also a `tar`/`zip` segment right before it); otherwise return
the filename unchanged with no format and no compression.  The negative
indexing `split[-1]`, `split[-2]`, `split[:-1]`, `split[:-2]` of the source is
realised by matching on the reversed segment list. -/
def parse_archive_filename (filename : String) : String × Option String × Option String :=
  match (splitDots filename.data).reverse with
  | last :: r1 :: revRest =>
    match lookupAlias (String.mk last) with
    | some fc => (String.mk (joinDots ((r1 :: revRest).reverse)), some fc.1, some fc.2)
    | none =>
      if String.mk last ∈ arhive_formats then
        (String.mk (joinDots ((r1 :: revRest).reverse)), some (String.mk last), none)
      else
        match lookupCompressor (String.mk last) with
        | some c =>
          if revRest.isEmpty then
            (String.mk (joinDots ((r1 :: revRest).reverse)), none, some c)
          else if String.mk r1 ∈ arhive_formats then
            (String.mk (joinDots revRest.reverse), some (String.mk r1), some c)
          else
            (String.mk (joinDots ((r1 :: revRest).reverse)), none, some c)
        | none => (filename, none, none)
  | _ => (filename, none, none)

example : parse_archive_filename "abc.tar.gz" = ("abc", some "tar", some "gzip") := by decide
example : parse_archive_filename "abc.tar.bz2" = ("abc", some "tar", some "bzip2") := by decide
example : parse_archive_filename "abc.def.tbz2" = ("abc.def", some "tar", some "bzip2") := by decide
example : parse_archive_filename "abc.def.tar.xz" = ("abc.def", some "tar", some "xz") := by decide
example : parse_archive_filename "abc.zip" = ("abc", some "zip", none) := by decide
example : parse_archive_filename "abc.lzma" = ("abc", none, some "lzma") := by decide
example : parse_archive_filename "abc.tar.foo" = ("abc.tar.foo", none, none) := by decide
example : parse_archive_filename "abc" = ("abc", none, none) := by decide

theorem filename_join (filename : String) :
    filename = String.mk (joinDots (splitDots filename.data)) := by
  rw [joinDots_splitDots]

theorem mk_joinDots_append (front : List (List Char)) (l : List Char) (hf : front ≠ []) :
    String.mk (joinDots (front ++ [l])) = String.mk (joinDots front) ++ "." ++ String.mk l := by
  rw [joinDots_append front [l] hf (by simp)]
  show String.mk (joinDots front ++ '.' :: joinDots [l]) = _
  rw [show ('.' :: joinDots [l]) = ['.'] ++ l from rfl, ← List.append_assoc, mk_append, mk_append]

theorem splitDots_eq_of_reverse (s : List Char) (l : List (List Char)) (g : List Char)
    (h : (splitDots s).reverse = g :: l) : splitDots s = l.reverse ++ [g] := by
  have := congrArg List.reverse h
  rw [List.reverse_reverse] at this
  rw [this, List.reverse_cons]

/-! Evaluation of `parse_archive_filename` in each branch of its control flow. -/

theorem parse_eq_short (filename : String)
    (h : ∀ l r1 revRest, (splitDots filename.data).reverse ≠ l :: r1 :: revRest) :
    parse_archive_filename filename = (filename, none, none) := by
  unfold parse_archive_filename
  rcases hrev : (splitDots filename.data).reverse with _ | ⟨l, _ | ⟨r1, revRest⟩⟩
  · rfl
  · rfl
  · exact absurd hrev (h l r1 revRest)

theorem parse_eq_alias (filename : String) (l r1 : List Char) (revRest : List (List Char))
    (hrev : (splitDots filename.data).reverse = l :: r1 :: revRest)
    (fc : String × String) (hA : lookupAlias (String.mk l) = some fc) :
    parse_archive_filename filename =
      (String.mk (joinDots ((r1 :: revRest).reverse)), some fc.1, some fc.2) := by
  unfold parse_archive_filename
  rw [hrev]
  simp only []
  rw [hA]

theorem parse_eq_fmt (filename : String) (l r1 : List Char) (revRest : List (List Char))
    (hrev : (splitDots filename.data).reverse = l :: r1 :: revRest)
    (hA : lookupAlias (String.mk l) = none)
    (hF : String.mk l ∈ arhive_formats) :
    parse_archive_filename filename =
      (String.mk (joinDots ((r1 :: revRest).reverse)), some (String.mk l), none) := by
  unfold parse_archive_filename
  rw [hrev]
  simp only []
  rw [hA]
  simp only []
  rw [if_pos hF]

theorem parse_eq_comp_chain (filename : String) (l r1 : List Char) (revRest : List (List Char))
    (hrev : (splitDots filename.data).reverse = l :: r1 :: revRest)
    (hA : lookupAlias (String.mk l) = none)
    (hF : String.mk l ∉ arhive_formats)
    (c : String) (hC : lookupCompressor (String.mk l) = some c)
    (hne : revRest.isEmpty = false)
    (hF2 : String.mk r1 ∈ arhive_formats) :
    parse_archive_filename filename =
      (String.mk (joinDots revRest.reverse), some (String.mk r1), some c) := by
  unfold parse_archive_filename
  rw [hrev]
  simp only []
  rw [hA]
  simp only []
  rw [if_neg hF, hC]
  simp only []
  rw [if_neg (by simp [hne]), if_pos hF2]

theorem parse_eq_comp_only (filename : String) (l r1 : List Char) (revRest : List (List Char))
    (hrev : (splitDots filename.data).reverse = l :: r1 :: revRest)
    (hA : lookupAlias (String.mk l) = none)
    (hF : String.mk l ∉ arhive_formats)
    (c : String) (hC : lookupCompressor (String.mk l) = some c)
    (h2 : revRest.isEmpty = true ∨ String.mk r1 ∉ arhive_formats) :
    parse_archive_filename filename =
      (String.mk (joinDots ((r1 :: revRest).reverse)), none, some c) := by
  unfold parse_archive_filename
  rw [hrev]
  simp only []
  rw [hA]
  simp only []
  rw [if_neg hF, hC]
  simp only []
  rcases h2 with h2 | h2
  · rw [if_pos h2]
  · cases he : revRest.isEmpty
    · rw [if_neg (by simp), if_neg h2]
    · rw [if_pos rfl]

theorem parse_eq_none (filename : String) (l r1 : List Char) (revRest : List (List Char))
    (hrev : (splitDots filename.data).reverse = l :: r1 :: revRest)
    (hA : lookupAlias (String.mk l) = none)
    (hF : String.mk l ∉ arhive_formats)
    (hC : lookupCompressor (String.mk l) = none) :
    parse_archive_filename filename = (filename, none, none) := by
  unfold parse_archive_filename
  rw [hrev]
  simp only []
  rw [hA]
  simp only []
  rw [if_neg hF, hC]

/-- C1: for every filename whose final dot-separated segment is not a
registered combined alias, container format, or compression extension,
`parse_archive_filename` returns the whole original filename with format and
compression both absent; in particular for `"abc.tar.foo"` and `"abc"`. -/
theorem parse_unrecognized_suffix_keeps_name :
    (∀ (filename last : String),
        ((splitDots filename.data).map String.mk).getLast? = some last →
        last ∉ archive_ext_aliases.map (fun a => a.1) →
        last ∉ arhive_formats →
        last ∉ compressor_opts.map (fun a => a.2.2) →
        parse_archive_filename filename = (filename, none, none)) ∧
      parse_archive_filename "abc.tar.foo" = ("abc.tar.foo", none, none) ∧
      parse_archive_filename "abc" = ("abc", none, none) := by
  refine ⟨?_, by decide, by decide⟩
  intro filename last hlast h1 h2 h3
  rcases hrev : (splitDots filename.data).reverse with _ | ⟨l, _ | ⟨r1, revRest⟩⟩
  · exact parse_eq_short filename (fun a b c hcon => by rw [hrev] at hcon; simp at hcon)
  · exact parse_eq_short filename (fun a b c hcon => by rw [hrev] at hcon; simp at hcon)
  · have hl : String.mk l = last := by
      have h4 := hlast
      rw [List.getLast?_map, List.getLast?_eq_head?_reverse, hrev] at h4
      simpa using h4
    have hA : lookupAlias (String.mk l) = none := by
      have hfind : archive_ext_aliases.find? (fun p => p.1 = String.mk l) = none := by
        rw [List.find?_eq_none]
        intro p hp
        simp only [decide_eq_true_eq]
        intro he
        exact h1 (List.mem_map.mpr ⟨p, hp, by rw [he, hl]⟩)
      simp [lookupAlias, hfind]
    have hC : lookupCompressor (String.mk l) = none := by
      have hfind : compressor_opts.find? (fun p => p.2.2 = String.mk l) = none := by
        rw [List.find?_eq_none]
        intro p hp
        simp only [decide_eq_true_eq]
        intro he
        exact h3 (List.mem_map.mpr ⟨p, hp, by rw [he, hl]⟩)
      simp [lookupCompressor, hfind]
    have hF : String.mk l ∉ arhive_formats := by rw [hl]; exact h2
    exact parse_eq_none filename l r1 revRest hrev hA hF hC

/-- Witness for C1 at the concrete input `"x.y.weird"`. -/
theorem parse_unrecognized_suffix_keeps_name_witness :
    parse_archive_filename "x.y.weird" = ("x.y.weird", none, none) :=
  parse_unrecognized_suffix_keeps_name.1 "x.y.weird" "weird" (by decide) (by decide)
    (by decide) (by decide)

/-- C2: for every filename, if the classification has both a format and a
compression then the original filename is `base ++ "." ++ format ++ "." ++
compressionExtension` (with the extension registered for that compression
method) or `base ++ "." ++ combinedAlias` (with the alias registered for that
(format, compression) pair); if both are absent the base is the filename
unchanged. -/
theorem parse_reassembly (filename : String) :
    (∀ fmt cname, (parse_archive_filename filename).2.1 = some fmt →
        (parse_archive_filename filename).2.2 = some cname →
        (∃ flags ext, (cname, (flags, ext)) ∈ compressor_opts ∧
            filename = (parse_archive_filename filename).1 ++ "." ++ fmt ++ "." ++ ext) ∨
          (∃ aliasKey, (aliasKey, (fmt, cname)) ∈ archive_ext_aliases ∧
            filename = (parse_archive_filename filename).1 ++ "." ++ aliasKey)) ∧
      ((parse_archive_filename filename).2.1 = none →
        (parse_archive_filename filename).2.2 = none →
        (parse_archive_filename filename).1 = filename) := by
  rcases hrev : (splitDots filename.data).reverse with _ | ⟨l, _ | ⟨r1, revRest⟩⟩
  · have hp := parse_eq_short filename (fun a b c hcon => by rw [hrev] at hcon; simp at hcon)
    rw [hp]
    exact ⟨fun fmt cname h1 _ => by simp at h1, fun _ _ => rfl⟩
  · have hp := parse_eq_short filename (fun a b c hcon => by rw [hrev] at hcon; simp at hcon)
    rw [hp]
    exact ⟨fun fmt cname h1 _ => by simp at h1, fun _ _ => rfl⟩
  · have hsplit : splitDots filename.data = (r1 :: revRest).reverse ++ [l] :=
      splitDots_eq_of_reverse filename.data (r1 :: revRest) l hrev
    have hfile1 : filename = String.mk (joinDots ((r1 :: revRest).reverse)) ++ "." ++ String.mk l := by
      rw [filename_join filename, hsplit, mk_joinDots_append _ _ (by simp)]
    rcases hA : lookupAlias (String.mk l) with _ | fc
    · by_cases hF : String.mk l ∈ arhive_formats
      · have hp := parse_eq_fmt filename l r1 revRest hrev hA hF
        rw [hp]
        exact ⟨fun fmt cname _ h2 => by simp at h2, fun h1 _ => by simp at h1⟩
      · rcases hC : lookupCompressor (String.mk l) with _ | c
        · have hp := parse_eq_none filename l r1 revRest hrev hA hF hC
          rw [hp]
          exact ⟨fun fmt cname h1 _ => by simp at h1, fun _ _ => rfl⟩
        · obtain ⟨q, hfind, hq1⟩ :
              ∃ q, compressor_opts.find? (fun p => p.2.2 = String.mk l) = some q ∧ q.1 = c := by
            unfold lookupCompressor at hC
            rcases hf : compressor_opts.find? (fun p => p.2.2 = String.mk l) with _ | q
            · rw [hf] at hC; simp at hC
            · rw [hf] at hC; simp at hC; exact ⟨q, hf, hC⟩
          have hqmem : q ∈ compressor_opts := List.mem_of_find?_eq_some hfind
          have hqext : q.2.2 = String.mk l := by
            have := List.find?_some hfind
            simpa using this
          cases he : revRest.isEmpty
          · by_cases hF2 : String.mk r1 ∈ arhive_formats
            · have hp := parse_eq_comp_chain filename l r1 revRest hrev hA hF c hC he hF2
              rw [hp]
              refine ⟨fun fmt cname h1 h2 => ?_, fun h1 _ => by simp at h1⟩
              have hfmt : String.mk r1 = fmt := Option.some.inj h1
              have hcname : c = cname := Option.some.inj h2
              left
              refine ⟨q.2.1, String.mk l, ?_, ?_⟩
              · have heq : (cname, (q.2.1, String.mk l)) = q := by
                  rw [← hcname, ← hq1, ← hqext]
                exact heq ▸ hqmem
              · have hrne : revRest ≠ [] := by
                  intro hnil
                  subst hnil
                  simp at he
                have hfile2 : filename =
                    String.mk (joinDots revRest.reverse) ++ "." ++ String.mk r1 ++ "." ++ String.mk l := by
                  rw [filename_join filename, hsplit, List.reverse_cons,
                    mk_joinDots_append _ _ (by simp),
                    mk_joinDots_append _ _ (by simp [hrne])]
                rw [← hfmt]
                exact hfile2
            · have hp := parse_eq_comp_only filename l r1 revRest hrev hA hF c hC (Or.inr hF2)
              rw [hp]
              exact ⟨fun fmt cname h1 _ => by simp at h1, fun _ h2 => by simp at h2⟩
          · have hp := parse_eq_comp_only filename l r1 revRest hrev hA hF c hC (Or.inl he)
            rw [hp]
            exact ⟨fun fmt cname h1 _ => by simp at h1, fun _ h2 => by simp at h2⟩
    · obtain ⟨q, hfind, hq1⟩ :
          ∃ q, archive_ext_aliases.find? (fun p => p.1 = String.mk l) = some q ∧ q.2 = fc := by
        unfold lookupAlias at hA
        rcases hf : archive_ext_aliases.find? (fun p => p.1 = String.mk l) with _ | q
        · rw [hf] at hA; simp at hA
        · rw [hf] at hA; simp at hA; exact ⟨q, hf, hA⟩
      have hqmem : q ∈ archive_ext_aliases := List.mem_of_find?_eq_some hfind
      have hqkey : q.1 = String.mk l := by
        have := List.find?_some hfind
        simpa using this
      have hp := parse_eq_alias filename l r1 revRest hrev fc hA
      rw [hp]
      refine ⟨fun fmt cname h1 h2 => ?_, fun h1 _ => by simp at h1⟩
      have hfmt : fc.1 = fmt := Option.some.inj h1
      have hcname : fc.2 = cname := Option.some.inj h2
      right
      refine ⟨String.mk l, ?_, hfile1⟩
      have heq : (String.mk l, (fmt, cname)) = q := by
        rw [← hfmt, ← hcname, ← hq1, ← hqkey]
      exact heq ▸ hqmem

/-- Witness for C2: the invariant instantiated at `"x.tar.gz"` (both present)
and at `"abc"` (both absent). -/
theorem parse_reassembly_witness :
    ((∃ flags ext, (("gzip" : String), (flags, ext)) ∈ compressor_opts ∧
        "x.tar.gz" = (parse_archive_filename "x.tar.gz").1 ++ "." ++ "tar" ++ "." ++ ext) ∨
      (∃ aliasKey, (aliasKey, (("tar" : String), ("gzip" : String))) ∈ archive_ext_aliases ∧
        "x.tar.gz" = (parse_archive_filename "x.tar.gz").1 ++ "." ++ aliasKey)) ∧
      (parse_archive_filename "abc").1 = "abc" :=
  ⟨(parse_reassembly "x.tar.gz").1 "tar" "gzip" (by decide) (by decide),
   (parse_reassembly "abc").2 (by decide) (by decide)⟩

/-! ### Path helpers (`os.path`, Python string methods) -/

/-- Python `s.rstrip(chars)`: remove all trailing characters of `s` that are
in `chars`. -/
def pyRstrip (chars : List Char) (s : String) : String :=
  String.mk ((s.data.reverse.dropWhile (fun c => c ∈ chars)).reverse)

/-- Python `s.strip(chars)`: remove all leading and all trailing characters
of `s` that are in `chars`. -/
def pyStrip (chars : List Char) (s : String) : String :=
  String.mk (((s.data.dropWhile (fun c => c ∈ chars)).reverse.dropWhile
    (fun c => c ∈ chars)).reverse)

/-- Function `os.path.basename(p)`: everything after the last slash (the whole string
if there is no `'/'`). -/
def basename (p : String) : String :=
  String.mk ((p.data.reverse.takeWhile (fun c => c ≠ '/')).reverse)

/-- Function `os.path.join(a, b)` for POSIX paths: `b` if `b` is absolute, otherwise
`a` and `b` joined with a `'/'` unless `a` is empty or already ends in one. -/
def pyJoin (a b : String) : String :=
  if b.data.head? = some '/' then b
  else if a = "" then b
  else if a.data.getLast? = some '/' then a ++ b
  else a ++ "/" ++ b

/-! ### `UpstreamSource.guess_version`

The two built-in patterns of `guess_version` are

  `^(?P<package>[a-z\d\.\+\-]+)_(?P<version>%s+)\.orig%s` and
  `^(?P<package>[a-zA-Z\d\.\+\-]+)-(?P<version>[0-9]%s*)%s`

with `%s` instantiated by `version_chars = [a-zA-Z\d\.\~\-\:\+]` and by
`extensions`, which is empty for a directory and `\.tar\.(gz|bz2|lzma|xz)`
otherwise.  They are embedded as backtracking matchers: a greedy repetition
tries the longest repetition count first and backtracks, exactly as the Python `re.match` engine does; `re.match` anchors at the start only, so trailing input
after a successful match is allowed. -/

/-- Character class `[a-z\d\.\+\-]` (package group of the Debian pattern). -/
def debPkgChar (c : Char) : Bool :=
  c.isLower || c.isDigit || c = '.' || c = '+' || c = '-'

/-- Character class `[a-zA-Z\d\.\+\-]` (package group of the upstream pattern). -/
def upPkgChar (c : Char) : Bool :=
  c.isLower || c.isUpper || c.isDigit || c = '.' || c = '+' || c = '-'

/-- Character class `version_chars = [a-zA-Z\d\.\~\-\:\+]`. -/
def versionChar (c : Char) : Bool :=
  c.isAlpha || c.isDigit || c = '.' || c = '~' || c = '-' || c = ':' || c = '+'

/-- Backtracking for a greedy `X+`: try consuming `n` characters of `s`
(longest first, down to 1) and run the continuation `k` on the rest; returns
the consumed characters paired with the result of the continuation. -/
def greedyPlusFrom (s : List Char) (k : List Char → Option β) : Nat → Option (List Char × β)
  | 0 => none
  | n + 1 =>
    match k (s.drop (n + 1)) with
    | some b => some (s.take (n + 1), b)
    | none => greedyPlusFrom s k n

/-- Backtracking for a greedy `X*`: like `greedyPlusFrom` but zero characters
consumed is also allowed. -/
def greedyStarFrom (s : List Char) (k : List Char → Option β) : Nat → Option (List Char × β)
  | 0 => (k s).map (fun b => ([], b))
  | n + 1 =>
    match k (s.drop (n + 1)) with
    | some b => some (s.take (n + 1), b)
    | none => greedyStarFrom s k n

/-- The suffix `\.tar\.(ext1|ext2|...)`: a literal `".tar."` followed by one
of the registered compression extensions (no end anchor). -/
def tarExtSuffix (exts : List (List Char)) (s : List Char) : Bool :=
  match s with
  | '.' :: 't' :: 'a' :: 'r' :: '.' :: rest => exts.any (fun e => e.isPrefixOf rest)
  | _ => false

/-- The `%s` suffix of the built-in patterns: empty when the source is a
directory, `\.tar\.(exts)` otherwise. -/
def suffixOk (isdir : Bool) (exts : List (List Char)) (s : List Char) : Bool :=
  if isdir then true else tarExtSuffix exts s

/-- Matching of the Debian pattern under `re.match`:
`^(?P<package>[a-z\d\.\+\-]+)_(?P<version>version_chars+)\.orig<suffix>`. -/
def matchDebian (isdir : Bool) (exts : List (List Char)) (s : List Char) :
    Option (String × String) :=
  (greedyPlusFrom s (fun r1 =>
      match r1 with
      | '_' :: r2 =>
        (greedyPlusFrom r2 (fun r3 =>
            match r3 with
            | '.' :: 'o' :: 'r' :: 'i' :: 'g' :: r4 =>
              if suffixOk isdir exts r4 then some () else none
            | _ => none)
          (r2.takeWhile versionChar).length).map (fun p => p.1)
      | _ => none)
    (s.takeWhile debPkgChar).length).map
    (fun p => (String.mk p.1, String.mk p.2))

/-- Matching of the upstream pattern under `re.match`:
`^(?P<package>[a-zA-Z\d\.\+\-]+)-(?P<version>[0-9]version_chars*)<suffix>`. -/
def matchUpstream (isdir : Bool) (exts : List (List Char)) (s : List Char) :
    Option (String × String) :=
  (greedyPlusFrom s (fun r1 =>
      match r1 with
      | '-' :: d :: r3 =>
        if d.isDigit then
          (greedyStarFrom r3 (fun r4 => if suffixOk isdir exts r4 then some () else none)
            (r3.takeWhile versionChar).length).map (fun p => d :: p.1)
        else none
      | _ => none)
    (s.takeWhile upPkgChar).length).map
    (fun p => (String.mk p.1, String.mk p.2))

/-- Method `UpstreamSource.known_compressions()`: the registered compression file
extensions. -/
def known_compressions : List String := compressor_opts.map (fun a => a.2.2)

/-- Method `UpstreamSource.guess_version` with the default (empty) `extra_regex`:
try the Debian pattern and then the upstream pattern on the final filename
segment of the path; return the group pair (package, version) of the first match. -/
def guess_version (isdir : Bool) (path : String) : Option (String × String) :=
  let exts := known_compressions.map String.data
  let fname := (basename (pyRstrip ['/'] path)).data
  match matchDebian isdir exts fname with
  | some pv => some pv
  | none => matchUpstream isdir exts fname

section GuessVersionFixtures

example : guess_version false "foo-bar_0.2.orig.tar.gz" = some ("foo-bar", "0.2") := by decide

example : guess_version false "foo-Bar_0.2.orig.tar.gz" = none := by decide

example : guess_version false "git-bar-0.2.tar.gz" = some ("git-bar", "0.2") := by decide

example : guess_version false "git-bar-0.2-rc1.tar.gz" = some ("git-bar", "0.2-rc1") := by decide

example : guess_version false "git-bar-0.2:~-rc1.tar.gz" = some ("git-bar", "0.2:~-rc1") := by
  decide

example : guess_version false "git-Bar-0A2d:rc1.tar.bz2" = some ("git-Bar", "0A2d:rc1") := by
  decide

example : guess_version false "git-1.tar.bz2" = some ("git", "1") := by decide

example : guess_version false "kvm_87+dfsg.orig.tar.gz" = some ("kvm", "87+dfsg") := by decide

example : guess_version false "foo-Bar-a.b.tar.gz" = none := by decide

example : guess_version false "foo-bar_0.2.orig.tar.xz" = some ("foo-bar", "0.2") := by decide

example : guess_version false "foo-bar_0.2.orig.tar.lzma" = some ("foo-bar", "0.2") := by decide

end GuessVersionFixtures

/-- C3: `guess_version` with no extra pattern on a non-directory unit returns
exactly the five fixture results: `("foo-bar","0.2")`, absent, `("git-bar",
"0.2-rc1")`, `("kvm","87+dfsg")`, absent. -/
theorem guess_version_fixtures :
    guess_version false "foo-bar_0.2.orig.tar.gz" = some ("foo-bar", "0.2") ∧
      guess_version false "foo-Bar_0.2.orig.tar.gz" = none ∧
      guess_version false "git-bar-0.2-rc1.tar.gz" = some ("git-bar", "0.2-rc1") ∧
      guess_version false "kvm_87+dfsg.orig.tar.gz" = some ("kvm", "87+dfsg") ∧
      guess_version false "foo-Bar-a.b.tar.gz" = none :=
  ⟨by decide, by decide, by decide, by decide, by decide⟩

/-- Python-level errors raised by the embedded operations. -/
inductive PyErr
  | gbpError (msg : String)
  | commandExecFailed
  | typeError
deriving DecidableEq, Repr

/-- Method `UpstreamSource.guess_version` including the `extra_regex` parameter.
`version_filters` is the list built by `map(...)` from the two built-in
patterns; when `extra_regex` is truthy (non-empty) the source executes
`version_filters = extra_regex + version_filters`, which concatenates a `str`
with a `list` and raises `TypeError` before any pattern is tried; with the
default empty `extra_regex` the built-in patterns are tried in order. -/
def guess_versionE (extra_regex : String) (isdir : Bool) (path : String) :
    Except PyErr (Option (String × String)) :=
  if extra_regex.isEmpty then Except.ok (guess_version isdir path)
  else Except.error PyErr.typeError

/-- C6 (code bug): supplying any non-empty extra pattern makes `guess_version`
raise `TypeError` at `extra_regex + version_filters` (str + list) before any
pattern is evaluated, instead of trying the pattern of the caller first; the
pattern list is only consulted when no extra pattern is given. -/
theorem guess_version_extra_regex_raises :
    guess_versionE "(?P<package>[a-z]+)-(?P<version>[0-9]+)" false "pkg-1.tar.gz" =
        Except.error PyErr.typeError ∧
      guess_versionE "" false "git-bar-0.2-rc1.tar.gz" =
        Except.ok (some ("git-bar", "0.2-rc1")) :=
  ⟨rfl, congrArg Except.ok (by decide)⟩

/-! ### `PkgPolicy.is_valid_orig_archive` and `UpstreamSource.__init__` -/

/-- Predicate `PkgPolicy.is_valid_orig_archive(filename)`: `True` iff the parsed
archive format equals `tar` and the compression field is truthy (not
`None` and not the empty string). -/
def is_valid_orig_archive (filename : String) : Bool :=
  let parsed := parse_archive_filename filename
  decide (parsed.2.1 = some "tar") &&
    (match parsed.2.2 with
     | some c => !c.isEmpty
     | none => false)

/-- The state of an `UpstreamSource` object after `__init__`. -/
structure UpstreamSource where
  path0 : String
  unpacked : Option String
  filename_base : String
  archive_fmt0 : Option String
  compression0 : Option String
  orig : Bool
  tarball : Bool
deriving DecidableEq, Repr

/-- The `path` property: `self._path.rstrip("/")`. -/
def UpstreamSource.path (u : UpstreamSource) : String := pyRstrip ['/'] u.path0

/-- The `archive_fmt` property: returns `self._archive_fmt` unconditionally. -/
def UpstreamSource.archive_fmt (u : UpstreamSource) : Option String := u.archive_fmt0

/-- The `compression` property: returns `self._compression` unconditionally. -/
def UpstreamSource.compression (u : UpstreamSource) : Option String := u.compression0

/-- Constructor `UpstreamSource.__init__(name, unpacked)` with the filesystem
`os.path.isdir` supplied as the oracle `isDir` (queried on the raw `name`,
as `is_dir` checks `self._path`).  Classification parses the basename of the
rstripped path; `_check_orig` forces `_orig` and `_tarball` to `False` for a
directory; finally `unpacked` is overwritten with `self.path` for a
directory. -/
def mkUpstreamSource (isDir : String → Bool) (name : String) (unpacked0 : Option String) :
    UpstreamSource :=
  let path := pyRstrip ['/'] name
  let parsed := parse_archive_filename (basename path)
  let dir := isDir name
  { path0 := name
    unpacked := if dir then some path else unpacked0
    filename_base := parsed.1
    archive_fmt0 := parsed.2.1
    compression0 := parsed.2.2
    orig := if dir then false else is_valid_orig_archive (basename path)
    tarball := if dir then false else decide (parsed.2.1 = some "tar") }

/-- C4 counterexample: a source unit constructed on a directory named
`"foo.tar.gz"` still reports format `tar` and compression `gzip` — the
classification is not forced absent for directories, contrary to the claim. -/
theorem dir_source_keeps_classification :
    ¬ ((mkUpstreamSource (fun _ => true) "foo.tar.gz" none).archive_fmt = none ∧
        (mkUpstreamSource (fun _ => true) "foo.tar.gz" none).compression = none) := by
  decide

/-- C4 (amended): for every source unit constructed on a path the filesystem
reports as a directory, `unpacked` equals the `path` of the unit, and the
directory check forces `_orig` and `_tarball` to false — but the
format and compression of the classification remain whatever filename
parsing of the directory name produced. -/
theorem dir_source_invariant (isDir : String → Bool) (name : String)
    (unpacked0 : Option String) (h : isDir name = true) :
    (mkUpstreamSource isDir name unpacked0).unpacked =
        some (mkUpstreamSource isDir name unpacked0).path ∧
      (mkUpstreamSource isDir name unpacked0).orig = false ∧
      (mkUpstreamSource isDir name unpacked0).tarball = false ∧
      (mkUpstreamSource isDir name unpacked0).archive_fmt =
        (parse_archive_filename (basename (pyRstrip ['/'] name))).2.1 ∧
      (mkUpstreamSource isDir name unpacked0).compression =
        (parse_archive_filename (basename (pyRstrip ['/'] name))).2.2 := by
  unfold mkUpstreamSource UpstreamSource.path UpstreamSource.archive_fmt
    UpstreamSource.compression
  simp [h]

/-! ### The prefix-rewrite rule of `UpstreamSource.pack` -/

/-- The path-rewrite computation of `UpstreamSource.pack`: `pack_this` is the
leaf name of the unpacked tree (`os.path.basename(self.unpacked.rstrip('/'))`);
with no requested prefix the transform stays `None`; otherwise the prefix is
cleaned with the strip("/.") method of the requested prefix string and the tar transform option
(a sed-style rule formatted from `pack_this` and the cleaned prefix,
modelled here as the (old, new) pair) maps
`pack_this` to the cleaned prefix if non-empty, else to `"."`. -/
def pack_transform (unpacked : String) (newPfx : Option String) :
    Option (String × String) :=
  let pack_this := basename (pyRstrip ['/'] unpacked)
  match newPfx with
  | none => none
  | some p =>
    let cleaned := pyStrip ['/', '.'] p
    if !cleaned.isEmpty then some (pack_this, cleaned)
    else some (pack_this, ".")

/-- C5 counterexample: for the requested prefix `"new/"` the rewrite
rule maps the old leaf name to `"new"` — the trailing `'/'` is stripped as
well, so the claim that characters other than leading ones are kept is
false. -/
theorem pack_transform_strips_trailing :
    pack_transform "dir/old" (some "new/") = some ("old", "new") ∧
      pack_transform "dir/old" (some "new/") ≠ some ("old", "new/") := by
  refine ⟨by decide, by decide⟩

/-- C5 (amended): for every requested new prefix, the prefix is cleaned by
stripping its leading and trailing `'/'` and `'.'` characters (Python
`strip`, which trims both ends); if the cleaned prefix is non-empty the
rewrite rule maps the old leaf name to it, and if it is empty the rule maps
the old leaf name to `"."`. -/
theorem pack_transform_spec (unpacked p : String) :
    pack_transform unpacked (some p) =
      some (basename (pyRstrip ['/'] unpacked),
        if (pyStrip ['/', '.'] p).isEmpty then "." else pyStrip ['/', '.'] p) := by
  unfold pack_transform
  cases h : (pyStrip ['/', '.'] p).isEmpty <;> simp [h]

/-! ### `UpstreamSource._unpacked_toplevel` -/

/-- Method `_unpacked_toplevel(dir)`: `unpacked` is the concatenation of the
non-hidden glob (`dir/*`) and the hidden glob (`dir/.*`); if it holds exactly
one entry and that entry is a directory, return it, otherwise return
`os.path.join(dir, ".")` — the target directory itself. -/
def unpacked_toplevel (isDir : String → Bool) (dir : String)
    (visible hidden : List String) : String :=
  match visible ++ hidden with
  | [u] => if isDir u then u else pyJoin dir "."
  | _ => pyJoin dir "."

/-- C7: the top-level source directory after extraction is determined from
the entries (including hidden ones) directly under the target directory: a
single entry that is a directory is returned; with two or more entries, or a
single non-directory entry, the result is `os.path.join(targetDir, ".")`,
i.e. the target directory itself. -/
theorem unpacked_toplevel_spec (isDir : String → Bool) (dir : String)
    (visible hidden : List String) :
    (∀ u, visible ++ hidden = [u] → isDir u = true →
        unpacked_toplevel isDir dir visible hidden = u) ∧
      (∀ u, visible ++ hidden = [u] → isDir u = false →
        unpacked_toplevel isDir dir visible hidden = pyJoin dir ".") ∧
      ((visible ++ hidden).length ≠ 1 →
        unpacked_toplevel isDir dir visible hidden = pyJoin dir ".") := by
  refine ⟨fun u hu hd => ?_, fun u hu hd => ?_, fun hlen => ?_⟩
  · unfold unpacked_toplevel
    rw [hu]
    simp [hd]
  · unfold unpacked_toplevel
    rw [hu]
    simp [hd]
  · unfold unpacked_toplevel
    rcases hu : visible ++ hidden with _ | ⟨u0, _ | ⟨v, rest⟩⟩
    · rfl
    · rw [hu] at hlen
      simp at hlen
    · rfl

/-- Witness for C7: a lone subdirectory is returned; two entries fall back to
the target directory. -/
theorem unpacked_toplevel_spec_witness :
    unpacked_toplevel (fun _ => true) "t" ["t/only"] [] = "t/only" ∧
      unpacked_toplevel (fun _ => true) "t" ["t/a", "t/b"] [] = pyJoin "t" "." :=
  ⟨(unpacked_toplevel_spec (fun _ => true) "t" ["t/only"] []).1 "t/only" rfl rfl,
   (unpacked_toplevel_spec (fun _ => true) "t" ["t/a", "t/b"] []).2.2 (by decide)⟩

/-! ### `PkgPolicy.symlink_orig` -/

/-- Filesystem oracle: which paths exist (`os.access(p, os.F_OK)`). -/
structure FS where
  fexists : String → Bool

/-- Operation `os.unlink(p)`. -/
def FS.remove (fs : FS) (p : String) : FS :=
  ⟨fun q => if q = p then false else fs.fexists q⟩

/-- A successful `os.symlink(src, dst)`: `dst` now exists. -/
def FS.add (fs : FS) (p : String) : FS :=
  ⟨fun q => if q = p then true else fs.fexists q⟩

/-- Function `PkgPolicy.symlink_orig(orig_file, orig_dir, output_dir, force)` over the
filesystem oracle, with `os.path.abspath` supplied as a resolver.
`os.symlink` raising `OSError` is modelled by its structured failure mode,
the destination path already existing; the `try/except OSError` of the
source catches it and returns `False`, so the operation is a total function
returning the new filesystem state and a boolean. -/
def symlink_orig (abspath : String → String) (fs : FS)
    (orig_file orig_dir output_dir : String) (force : Bool) : FS × Bool :=
  let od := abspath orig_dir
  let nd := abspath output_dir
  if od = nd then (fs, true)
  else
    let src := pyJoin od orig_file
    let dst := pyJoin nd orig_file
    if !fs.fexists src then (fs, false)
    else
      let fs1 := if fs.fexists dst && force then fs.remove dst else fs
      if fs1.fexists dst then (fs1, false)
      else (fs1.add dst, true)

/-- C8: `symlink_orig` never raises — on every input it returns a boolean:
`true` with the filesystem untouched when the resolved source and destination
directories are identical; `false` when the source file does not exist;
`false` when link creation fails because `force` is false and the destination
already exists; and with `force` an existing destination is removed and
relinked, returning `true`. -/
theorem symlink_orig_spec (abspath : String → String) (fs : FS)
    (orig_file orig_dir output_dir : String) :
    (∀ force, abspath orig_dir = abspath output_dir →
        symlink_orig abspath fs orig_file orig_dir output_dir force = (fs, true)) ∧
      (∀ force, abspath orig_dir ≠ abspath output_dir →
        fs.fexists (pyJoin (abspath orig_dir) orig_file) = false →
        symlink_orig abspath fs orig_file orig_dir output_dir force = (fs, false)) ∧
      (abspath orig_dir ≠ abspath output_dir →
        fs.fexists (pyJoin (abspath orig_dir) orig_file) = true →
        fs.fexists (pyJoin (abspath output_dir) orig_file) = true →
        symlink_orig abspath fs orig_file orig_dir output_dir false = (fs, false)) ∧
      (abspath orig_dir ≠ abspath output_dir →
        fs.fexists (pyJoin (abspath orig_dir) orig_file) = true →
        (symlink_orig abspath fs orig_file orig_dir output_dir true).2 = true ∧
          ((symlink_orig abspath fs orig_file orig_dir output_dir true).1).fexists
            (pyJoin (abspath output_dir) orig_file) = true) := by
  refine ⟨fun force h => ?_, fun force h hsrc => ?_, fun h hsrc hdst => ?_, fun h hsrc => ?_⟩
  · unfold symlink_orig
    rw [if_pos h]
  · unfold symlink_orig
    rw [if_neg h]
    simp [hsrc]
  · unfold symlink_orig
    rw [if_neg h]
    simp [hsrc, hdst]
  · unfold symlink_orig
    rw [if_neg h]
    cases hdst : fs.fexists (pyJoin (abspath output_dir) orig_file)
    · simp [hsrc, hdst, FS.add]
    · simp [hsrc, hdst, FS.remove, FS.add]

/-- Witness for C8 in the `force` case: with source `/a/f` present and a
stale destination `/b/f` present, forcing returns `true` and the destination
exists afterwards. -/
theorem symlink_orig_spec_witness :
    (symlink_orig id ⟨fun p => decide (p = "/a/f" ∨ p = "/b/f")⟩ "f" "/a" "/b" true).2 = true ∧
      ((symlink_orig id ⟨fun p => decide (p = "/a/f" ∨ p = "/b/f")⟩ "f" "/a" "/b" true).1).fexists
        (pyJoin (id "/b") "f") = true :=
  (symlink_orig_spec id ⟨fun p => decide (p = "/a/f" ∨ p = "/b/f")⟩ "f" "/a" "/b").2.2.2
    (by decide) (by decide)

/-! ### `git_archive_submodules` (`gbp/scripts/common/buildpackage.py`) -/

/-- The filesystem world seen by the tree archiver: the list of existing
paths. -/
structure World where
  paths : List String
deriving Repr

/-- Operation `shutil.rmtree(d)`: remove `d` and everything below it. -/
def World.rmtree (w : World) (d : String) : World :=
  ⟨w.paths.filter (fun p => !(d.data.isPrefixOf p.data))⟩

/-- Oracle for the external capabilities used by `git_archive_submodules`:
the fresh name chosen by `mkdtemp`, whether root-tree archiving raises,
the submodules of the treeish, whether archiving a submodule or its
concatenation raises, the compression type, and the exit status returned by
the `os.system` compressor invocation. -/
structure ArchiveOracle where
  tmpName : String
  rootFails : Bool
  submodules : List (String × String)
  subFails : String → Bool
  concatFails : String → Bool
  comp_type : Option String
  compressRet : Nat

/-- The submodule loop of the `try:` block: archive each submodule into
`submodule_archive` and concatenate it onto the main archive; a raise aborts
with the world as it stands at that point. -/
def submoduleLoop (o : ArchiveOracle) (submodule_archive : String) :
    List (String × String) → World → Except PyErr Unit × World
  | [], w => (Except.ok (), w)
  | (subdir, _) :: rest, w =>
    if o.subFails subdir then (Except.error PyErr.commandExecFailed, w)
    else
      let w1 : World := ⟨submodule_archive :: w.paths⟩
      if o.concatFails subdir then (Except.error PyErr.commandExecFailed, w1)
      else submoduleLoop o submodule_archive rest w1

/-- The `try:` block of `git_archive_submodules`: archive the root tree into
`main.<format>` inside the temp dir, run the submodule loop, then either
compress (raising `GbpError` on a non-zero compressor status) or
`shutil.move` the merged archive to the output. -/
def git_archive_submodules_try (o : ArchiveOracle) (tempdir output format : String)
    (w0 : World) : Except PyErr Unit × World :=
  let main_archive := pyJoin tempdir ("main." ++ format)
  let submodule_archive := pyJoin tempdir ("submodule." ++ format)
  if o.rootFails then (Except.error PyErr.commandExecFailed, w0)
  else
    let w1 : World := ⟨main_archive :: w0.paths⟩
    match submoduleLoop o submodule_archive o.submodules w1 with
    | (Except.error e, w2) => (Except.error e, w2)
    | (Except.ok _, w2) =>
      match o.comp_type with
      | some _ =>
        if o.compressRet ≠ 0 then
          (Except.error (PyErr.gbpError "Error creating output"), w2)
        else (Except.ok (), ⟨output :: w2.paths⟩)
      | none =>
        (Except.ok (), ⟨output :: w2.paths.filter (fun p => p ≠ main_archive)⟩)

/-- Function `git_archive_submodules(repo, treeish, output, tmpdir_base, prefix,
comp_type, comp_level, comp_opts, format)`: `tempfile.mkdtemp` creates the
temporary directory under `tmpdir_base`, the `try:` block runs, and the
`finally:` clause removes the temporary directory whatever the outcome. -/
def git_archive_submodules (o : ArchiveOracle) (tmpdir_base output format : String)
    (w : World) : Except PyErr Unit × World :=
  let tempdir := pyJoin tmpdir_base ("git-archive_" ++ o.tmpName)
  let r := git_archive_submodules_try o tempdir output format ⟨tempdir :: w.paths⟩
  (r.1, r.2.rmtree tempdir)

theorem World.not_mem_rmtree (w : World) (d p : String)
    (hp : d.data.isPrefixOf p.data = true) : p ∉ (w.rmtree d).paths := by
  intro hmem
  unfold World.rmtree at hmem
  have := List.of_mem_filter hmem
  simp [hp] at this

/-- C9: `git_archive_submodules` removes its temporary working directory on
every exit path — for every oracle (success, root-tree archiving failure,
sub-tree archiving or concatenation failure, compression failure), no path
under the temporary directory is left in the final world. -/
theorem git_archive_submodules_cleanup (o : ArchiveOracle)
    (tmpdir_base output format : String) (w : World) (p : String)
    (hp : (pyJoin tmpdir_base ("git-archive_" ++ o.tmpName)).data.isPrefixOf p.data = true) :
    p ∉ (git_archive_submodules o tmpdir_base output format w).2.paths :=
  World.not_mem_rmtree
    (git_archive_submodules_try o (pyJoin tmpdir_base ("git-archive_" ++ o.tmpName))
      output format ⟨pyJoin tmpdir_base ("git-archive_" ++ o.tmpName) :: w.paths⟩).2
    (pyJoin tmpdir_base ("git-archive_" ++ o.tmpName)) p hp

/-- Witness for C9: with one submodule, gzip compression and a failing
compressor, the temporary main archive is gone from the final world. -/
theorem git_archive_submodules_cleanup_witness :
    "/tmp/git-archive_X/main.tar" ∉
      (git_archive_submodules
        ⟨"X", false, [("./sub", "abcdef")], fun _ => false, fun _ => false, some "gzip", 1⟩
        "/tmp" "/out/foo.tar.gz" "tar" ⟨[]⟩).2.paths :=
  git_archive_submodules_cleanup
    ⟨"X", false, [("./sub", "abcdef")], fun _ => false, fun _ => false, some "gzip", 1⟩
    "/tmp" "/out/foo.tar.gz" "tar" ⟨[]⟩ "/tmp/git-archive_X/main.tar" (by decide)

/-! ### The dynamically typed `filters` argument of `unpack` and `pack` -/

/-- A Python value, as far as the `filters` argument is concerned. -/
inductive PyVal
  | none
  | bool (b : Bool)
  | int (n : Int)
  | str (s : String)
  | list (l : List String)
  | tuple (l : List String)
deriving DecidableEq, Repr

/-- Python truthiness (`if not filters: ...`). -/
def PyVal.isTruthy : PyVal → Bool
  | .none => false
  | .bool b => b
  | .int n => decide (n ≠ 0)
  | .str s => decide (s ≠ "")
  | .list l => !l.isEmpty
  | .tuple l => !l.isEmpty

/-- `type(filters) == type([])`. -/
def PyVal.isPyList : PyVal → Bool
  | .list _ => true
  | _ => false

/-- The prologue of `UpstreamSource.unpack(dir, filters)`: raise `GbpError`
for a directory source; replace a falsy `filters` with `[]`; then raise
`GbpError("Filters must be a list")` unless the value is a list. -/
def unpack_filters_check (is_dir : Bool) (filters : PyVal) : Except PyErr (List String) :=
  if is_dir then Except.error (PyErr.gbpError "Cannot unpack directory")
  else
    let filters := if !filters.isTruthy then PyVal.list [] else filters
    match filters with
    | PyVal.list l => Except.ok l
    | _ => Except.error (PyErr.gbpError "Filters must be a list")

/-- The prologue of `UpstreamSource.pack`:
raise `GbpError` when there is no (truthy) unpacked tree; replace a falsy
`filters` with `[]`; then raise `GbpError("Filters must be a list")` unless
the value is a list. -/
def pack_filters_check (unpacked : Option String) (filters : PyVal) :
    Except PyErr (List String) :=
  match unpacked with
  | Option.none => Except.error (PyErr.gbpError "Need an unpacked source tree to pack")
  | Option.some s =>
    if s = "" then Except.error (PyErr.gbpError "Need an unpacked source tree to pack")
    else
      let filters := if !filters.isTruthy then PyVal.list [] else filters
      match filters with
      | PyVal.list l => Except.ok l
      | _ => Except.error (PyErr.gbpError "Filters must be a list")

/-- C10: every falsy `filters` argument to `unpack` or `pack` (None, False,
empty tuple, empty string, 0, empty list) is replaced by an empty filter
list and the operation proceeds without the "Filters must be a list" usage
error; the is-it-a-list check fires only on truthy values. -/
theorem falsy_filters_ok (filters : PyVal) :
    (filters.isTruthy = false →
        unpack_filters_check false filters = Except.ok [] ∧
          pack_filters_check (some "tree") filters = Except.ok []) ∧
      (filters.isTruthy = true → filters.isPyList = false →
        unpack_filters_check false filters =
            Except.error (PyErr.gbpError "Filters must be a list") ∧
          pack_filters_check (some "tree") filters =
            Except.error (PyErr.gbpError "Filters must be a list")) := by
  refine ⟨fun hf => ?_, fun ht hl => ?_⟩
  · unfold unpack_filters_check pack_filters_check
    simp [hf]
  · unfold unpack_filters_check pack_filters_check
    simp only [ht]
    cases filters <;> simp_all [PyVal.isPyList]

/-- Witness for C10 at the falsy value `None` and at the truthy non-list
`"x"`. -/
theorem falsy_filters_ok_witness :
    (unpack_filters_check false PyVal.none = Except.ok [] ∧
        pack_filters_check (some "tree") PyVal.none = Except.ok []) ∧
      (unpack_filters_check false (PyVal.str "x") =
          Except.error (PyErr.gbpError "Filters must be a list") ∧
        pack_filters_check (some "tree") (PyVal.str "x") =
          Except.error (PyErr.gbpError "Filters must be a list")) :=
  ⟨(falsy_filters_ok PyVal.none).1 rfl,
   (falsy_filters_ok (PyVal.str "x")).2 (by decide) rfl⟩

/-- Witness for the amended C4 theorem at a directory named `"foo.tar.gz"`. -/
theorem dir_source_invariant_witness :
    (mkUpstreamSource (fun _ => true) "foo.tar.gz" none).unpacked =
        some (mkUpstreamSource (fun _ => true) "foo.tar.gz" none).path ∧
      (mkUpstreamSource (fun _ => true) "foo.tar.gz" none).orig = false ∧
      (mkUpstreamSource (fun _ => true) "foo.tar.gz" none).tarball = false ∧
      (mkUpstreamSource (fun _ => true) "foo.tar.gz" none).archive_fmt =
        (parse_archive_filename (basename (pyRstrip ['/'] "foo.tar.gz"))).2.1 ∧
      (mkUpstreamSource (fun _ => true) "foo.tar.gz" none).compression =
        (parse_archive_filename (basename (pyRstrip ['/'] "foo.tar.gz"))).2.2 :=
  dir_source_invariant (fun _ => true) "foo.tar.gz" none rfl

end Gbp
